import Mathlib

/-!
A shallow embedding of the core of the RayTracerChallenge renderer
(src/tuple.rs, src/colour.rs, src/matrix.rs, src/shapes.rs, src/ray.rs,
src/world.rs) over the real numbers, together with theorems settling the
frozen claims about it.

Modelling conventions:
* `f32` is modelled by `ℝ`; float rounding is out of scope.
* A Rust `panic!` (including an out-of-bounds `Vec` index such as
  `lights[0]` on an empty vector, and the `panic!` in `Matrix4x4::inverse`)
  is modelled by an `Option`-valued function returning `none`; `none`
  propagates through callers exactly as a panic unwinds through them.
* Bounded `for` loops of the Rust source are unrolled or turned into
  structural recursion over the traversed list.
-/

namespace RayTracer

noncomputable section

/-- Modelled from the spec: the crate root (which declares the modules and the
module-level `DEFAULT_EPSILON` tolerance constant) is not among the sources;
spec §7 gives the reference epsilon as 1e-5. -/
def DEFAULT_EPSILON : ℝ := 1 / 100000

/-- `Tuple` from src/tuple.rs: four floats, w = 1 marks a point, w = 0 a vector. -/
structure Tuple where
  x : ℝ
  y : ℝ
  z : ℝ
  w : ℝ

/-- `point` from src/tuple.rs. -/
def point (x y z : ℝ) : Tuple := ⟨x, y, z, 1⟩

/-- `vector` from src/tuple.rs. -/
def vector (x y z : ℝ) : Tuple := ⟨x, y, z, 0⟩

/-- `Tuple::magnitude`: sqrt of the sum of the squares of all four components. -/
def Tuple.magnitude (t : Tuple) : ℝ :=
  Real.sqrt (t.x ^ 2 + t.y ^ 2 + t.z ^ 2 + t.w ^ 2)

/-- `Tuple::normalize`: divides every component by the magnitude using raw
division; the Rust source has no panic branch here (float division by zero
does not panic), so the model is a total function. -/
def Tuple.normalize (t : Tuple) : Tuple :=
  ⟨t.x / t.magnitude, t.y / t.magnitude, t.z / t.magnitude, t.w / t.magnitude⟩

/-- `Tuple::dot`. -/
def Tuple.dot (a b : Tuple) : ℝ :=
  a.x * b.x + a.y * b.y + a.z * b.z + a.w * b.w

instance : Add Tuple :=
  ⟨fun a b => ⟨a.x + b.x, a.y + b.y, a.z + b.z, a.w + b.w⟩⟩

instance : Sub Tuple :=
  ⟨fun a b => ⟨a.x - b.x, a.y - b.y, a.z - b.z, a.w - b.w⟩⟩

/-- `impl ops::Neg for Tuple`: each component is `0.0 - c` in the source. -/
instance : Neg Tuple :=
  ⟨fun a => ⟨0 - a.x, 0 - a.y, 0 - a.z, 0 - a.w⟩⟩

/-- `impl ops::Mul<f32> for Tuple`. -/
instance : HMul Tuple ℝ Tuple :=
  ⟨fun t s => ⟨t.x * s, t.y * s, t.z * s, t.w * s⟩⟩

/-- `impl ops::Div<f32> for Tuple`: panics (`none`) when the scalar is zero,
otherwise divides every component by it. -/
def Tuple.divScalar (t : Tuple) (s : ℝ) : Option Tuple :=
  if s = 0 then none else some ⟨t.x / s, t.y / s, t.z / s, t.w / s⟩

/-- Modelled from the spec: `Tuple::reflect` is called by src/ray.rs but its
definition is not in the src/tuple.rs snapshot; spec §4.1 gives it as
`v - normal * 2 * v.dot(normal)`. -/
def Tuple.reflect (v n : Tuple) : Tuple :=
  v - n * (2 : ℝ) * Tuple.dot v n

/-- `Colour` from src/colour.rs. -/
structure Colour where
  red : ℝ
  green : ℝ
  blue : ℝ

/-- `colour::WHITE`. -/
def WHITE : Colour := ⟨1, 1, 1⟩

/-- `colour::BLACK`. -/
def BLACK : Colour := ⟨0, 0, 0⟩

instance : Add Colour :=
  ⟨fun a b => ⟨a.red + b.red, a.green + b.green, a.blue + b.blue⟩⟩

instance : Sub Colour :=
  ⟨fun a b => ⟨a.red - b.red, a.green - b.green, a.blue - b.blue⟩⟩

/-- `impl ops::Mul for Colour`: channel-wise product. -/
instance : Mul Colour :=
  ⟨fun a b => ⟨a.red * b.red, a.green * b.green, a.blue * b.blue⟩⟩

/-- `impl ops::Mul<f32> for Colour`. -/
instance : HMul Colour ℝ Colour :=
  ⟨fun c s => ⟨c.red * s, c.green * s, c.blue * s⟩⟩

/-- `Matrix2x2` from src/matrix.rs, row-major `[f32; 4]` given by its four
entries. -/
structure Matrix2x2 where
  v00 : ℝ
  v01 : ℝ
  v10 : ℝ
  v11 : ℝ

/-- `Matrix2x2::determinant`. -/
def Matrix2x2.determinant (A : Matrix2x2) : ℝ :=
  A.v00 * A.v11 - A.v01 * A.v10

/-- `Matrix3x3` from src/matrix.rs, row-major `[f32; 9]`. -/
structure Matrix3x3 where
  v00 : ℝ
  v01 : ℝ
  v02 : ℝ
  v10 : ℝ
  v11 : ℝ
  v12 : ℝ
  v20 : ℝ
  v21 : ℝ
  v22 : ℝ

/-- `Matrix3x3::value_at(m, n)`; the Rust source panics for out-of-range
indices, which no in-repository caller reaches — out-of-range arguments are
given the junk value 0 here. -/
def Matrix3x3.value_at (A : Matrix3x3) (m n : ℕ) : ℝ :=
  match m, n with
  | 0, 0 => A.v00
  | 0, 1 => A.v01
  | 0, 2 => A.v02
  | 1, 0 => A.v10
  | 1, 1 => A.v11
  | 1, 2 => A.v12
  | 2, 0 => A.v20
  | 2, 1 => A.v21
  | 2, 2 => A.v22
  | _, _ => 0

/-- The index arithmetic of the `submatrix` loops: kept rows/columns are the
ones different from the deleted index, visited in increasing order. -/
def skipIdx (m i : ℕ) : ℕ := if i < m then i else i + 1

/-- `Matrix3x3::submatrix(m, n)`: the 2x2 matrix obtained by deleting row `m`
and column `n`, filled in row-major order of the kept entries (the double
loop of the source, unrolled). -/
def Matrix3x3.submatrix (A : Matrix3x3) (m n : ℕ) : Matrix2x2 :=
  ⟨A.value_at (skipIdx m 0) (skipIdx n 0), A.value_at (skipIdx m 0) (skipIdx n 1),
   A.value_at (skipIdx m 1) (skipIdx n 0), A.value_at (skipIdx m 1) (skipIdx n 1)⟩

/-- `Matrix3x3::minor`. -/
def Matrix3x3.minor (A : Matrix3x3) (m n : ℕ) : ℝ :=
  (A.submatrix m n).determinant

/-- `Matrix3x3::cofactor`: the minor, negated when `(m + n) & 1 == 1`. -/
def Matrix3x3.cofactor (A : Matrix3x3) (m n : ℕ) : ℝ :=
  if (m + n) % 2 = 0 then A.minor m n else -(A.minor m n)

/-- `Matrix3x3::determinant`: first-column cofactor expansion (the loop of the
source, unrolled). -/
def Matrix3x3.determinant (A : Matrix3x3) : ℝ :=
  A.value_at 0 0 * A.cofactor 0 0 + A.value_at 1 0 * A.cofactor 1 0 +
    A.value_at 2 0 * A.cofactor 2 0

/-- `Matrix4x4` from src/matrix.rs, row-major `[f32; 16]`. -/
structure Matrix4x4 where
  v00 : ℝ
  v01 : ℝ
  v02 : ℝ
  v03 : ℝ
  v10 : ℝ
  v11 : ℝ
  v12 : ℝ
  v13 : ℝ
  v20 : ℝ
  v21 : ℝ
  v22 : ℝ
  v23 : ℝ
  v30 : ℝ
  v31 : ℝ
  v32 : ℝ
  v33 : ℝ

/-- `Matrix4x4::value_at(m, n)`; out-of-range indices (a panic in Rust,
reached by no in-repository caller) get the junk value 0. -/
def Matrix4x4.value_at (A : Matrix4x4) (m n : ℕ) : ℝ :=
  match m, n with
  | 0, 0 => A.v00
  | 0, 1 => A.v01
  | 0, 2 => A.v02
  | 0, 3 => A.v03
  | 1, 0 => A.v10
  | 1, 1 => A.v11
  | 1, 2 => A.v12
  | 1, 3 => A.v13
  | 2, 0 => A.v20
  | 2, 1 => A.v21
  | 2, 2 => A.v22
  | 2, 3 => A.v23
  | 3, 0 => A.v30
  | 3, 1 => A.v31
  | 3, 2 => A.v32
  | 3, 3 => A.v33
  | _, _ => 0

/-- `Matrix4x4::transpose` (the double loop of the source, unrolled). -/
def Matrix4x4.transpose (A : Matrix4x4) : Matrix4x4 :=
  ⟨A.v00, A.v10, A.v20, A.v30,
   A.v01, A.v11, A.v21, A.v31,
   A.v02, A.v12, A.v22, A.v32,
   A.v03, A.v13, A.v23, A.v33⟩

/-- `Matrix4x4::submatrix(m, n)`: delete row `m` and column `n`, keeping the
remaining entries in row-major order (the double loop of the source,
unrolled). -/
def Matrix4x4.submatrix (A : Matrix4x4) (m n : ℕ) : Matrix3x3 :=
  ⟨A.value_at (skipIdx m 0) (skipIdx n 0), A.value_at (skipIdx m 0) (skipIdx n 1),
   A.value_at (skipIdx m 0) (skipIdx n 2),
   A.value_at (skipIdx m 1) (skipIdx n 0), A.value_at (skipIdx m 1) (skipIdx n 1),
   A.value_at (skipIdx m 1) (skipIdx n 2),
   A.value_at (skipIdx m 2) (skipIdx n 0), A.value_at (skipIdx m 2) (skipIdx n 1),
   A.value_at (skipIdx m 2) (skipIdx n 2)⟩

/-- `Matrix4x4::minor`. -/
def Matrix4x4.minor (A : Matrix4x4) (m n : ℕ) : ℝ :=
  (A.submatrix m n).determinant

/-- `Matrix4x4::cofactor`. -/
def Matrix4x4.cofactor (A : Matrix4x4) (m n : ℕ) : ℝ :=
  if (m + n) % 2 = 0 then A.minor m n else -(A.minor m n)

/-- `Matrix4x4::determinant`: first-column cofactor expansion (the loop of the
source, unrolled). -/
def Matrix4x4.determinant (A : Matrix4x4) : ℝ :=
  A.value_at 0 0 * A.cofactor 0 0 + A.value_at 1 0 * A.cofactor 1 0 +
    A.value_at 2 0 * A.cofactor 2 0 + A.value_at 3 0 * A.cofactor 3 0

/-- `Matrix4x4::invertible`: the source compares the determinant against 0.0
with exact float equality (`self.determinant() != 0.0`). -/
def Matrix4x4.invertible (A : Matrix4x4) : Prop :=
  A.determinant ≠ 0

/-- The matrix written by the loop body of `Matrix4x4::inverse`:
`inv.write_value(n, m, cofactor(m, n) / det)`, i.e. the entry at row `r`,
column `c` is `cofactor(c, r) / det` (the transpose is folded into the write
order). -/
def Matrix4x4.inverseVals (A : Matrix4x4) : Matrix4x4 :=
  let det := A.determinant
  ⟨A.cofactor 0 0 / det, A.cofactor 1 0 / det, A.cofactor 2 0 / det, A.cofactor 3 0 / det,
   A.cofactor 0 1 / det, A.cofactor 1 1 / det, A.cofactor 2 1 / det, A.cofactor 3 1 / det,
   A.cofactor 0 2 / det, A.cofactor 1 2 / det, A.cofactor 2 2 / det, A.cofactor 3 2 / det,
   A.cofactor 0 3 / det, A.cofactor 1 3 / det, A.cofactor 2 3 / det, A.cofactor 3 3 / det⟩

/-- `Matrix4x4::inverse`: panics (`none`) when the determinant is exactly 0,
otherwise the adjugate divided by the determinant. -/
def Matrix4x4.inverse (A : Matrix4x4) : Option Matrix4x4 :=
  if A.determinant = 0 then none else some A.inverseVals

/-- `impl ops::Mul<Tuple> for Matrix4x4`: row-by-column dot products (the loop
of the source, unrolled). -/
def Matrix4x4.mulTuple (A : Matrix4x4) (t : Tuple) : Tuple :=
  ⟨A.value_at 0 0 * t.x + A.value_at 0 1 * t.y + A.value_at 0 2 * t.z + A.value_at 0 3 * t.w,
   A.value_at 1 0 * t.x + A.value_at 1 1 * t.y + A.value_at 1 2 * t.z + A.value_at 1 3 * t.w,
   A.value_at 2 0 * t.x + A.value_at 2 1 * t.y + A.value_at 2 2 * t.z + A.value_at 2 3 * t.w,
   A.value_at 3 0 * t.x + A.value_at 3 1 * t.y + A.value_at 3 2 * t.z + A.value_at 3 3 * t.w⟩

/-- `matrix::identity()`. -/
def identity : Matrix4x4 :=
  ⟨1, 0, 0, 0,
   0, 1, 0, 0,
   0, 0, 1, 0,
   0, 0, 0, 1⟩

/-- `Shape` from src/shapes.rs: the closed variant of shape kinds. -/
inductive Shape where
  | sphere : Shape
  | test : Shape
  | plane : Shape

/-- `PatternType` from src/shapes.rs. -/
inductive PatternType where
  | striped : PatternType
  | gradient : PatternType
  | ring : PatternType
  | checkers : PatternType

/-- `Pattern` from src/shapes.rs. -/
structure Pattern where
  c1 : Colour
  c2 : Colour
  pattern_type : PatternType
  transformation : Matrix4x4

/-- `Material` from src/shapes.rs.  The `transparency` and `refractive_index`
fields are modelled from the spec: the src/shapes.rs snapshot predates them,
but src/ray.rs and src/world.rs read them, and spec §3 lists them as part of
`Material` (transparency in [0,1], refractive index, 1.0 = vacuum). -/
structure Material where
  colour : Colour
  ambient : ℝ
  diffuse : ℝ
  specular : ℝ
  shininess : ℝ
  pattern : Option Pattern
  reflective : ℝ
  transparency : ℝ
  refractive_index : ℝ

/-- `Material::new()`; the `transparency = 0.0` and `refractive_index = 1.0`
defaults are modelled from spec §4.3. -/
def Material.new : Material :=
  { colour := WHITE
    ambient := 0.1
    diffuse := 0.9
    specular := 0.9
    shininess := 200
    pattern := none
    reflective := 0
    transparency := 0
    refractive_index := 1 }

/-- `Object` from src/shapes.rs. -/
structure Object where
  transform : Matrix4x4
  material : Material
  shape : Shape

/-- `Object::new()`: the Test object. -/
def Object.new : Object :=
  { transform := identity, material := Material.new, shape := Shape.test }

/-- `Object::new_sphere()`. -/
def Object.new_sphere : Object :=
  { transform := identity, material := Material.new, shape := Shape.sphere }

/-- `Object::new_plane()`. -/
def Object.new_plane : Object :=
  { transform := identity, material := Material.new, shape := Shape.plane }

/-- `f32::rem_euclid(rhs)` for the cases used by `Pattern::pattern_at`:
the Euclidean remainder `x - rhs * floor(x / rhs)`. -/
def remEuclid (x rhs : ℝ) : ℝ := x - rhs * (⌊x / rhs⌋ : ℝ)

/-- `f32::floor` as a real number. -/
def ffloor (x : ℝ) : ℝ := (⌊x⌋ : ℝ)

/-- `Pattern::pattern_at` from src/shapes.rs. -/
def Pattern.pattern_at (p : Pattern) (pt : Tuple) : Colour :=
  match p.pattern_type with
  | PatternType.striped =>
      if 0 < remEuclid (ffloor pt.x) 2 then p.c2 else p.c1
  | PatternType.gradient =>
      let distance := p.c2 - p.c1
      let fraction := pt.x - ffloor pt.x
      p.c1 + distance * fraction
  | PatternType.ring =>
      if remEuclid (ffloor (Real.sqrt (pt.x ^ 2 + pt.z ^ 2))) 2 = 0 then p.c1 else p.c2
  | PatternType.checkers =>
      let px := ffloor (pt.x + DEFAULT_EPSILON)
      let py := ffloor (pt.y + DEFAULT_EPSILON)
      let pz := ffloor (pt.z + DEFAULT_EPSILON)
      if remEuclid (px + py + pz) 2 = 0 then p.c1 else p.c2

/-- `Object::normal_at` from src/shapes.rs; `transform.inverse()` is called
twice, each a potential panic. -/
def Object.normal_at (o : Object) (world_point : Tuple) : Option Tuple := do
  let inv1 ← o.transform.inverse
  let object_point := inv1.mulTuple world_point
  let object_normal :=
    match o.shape with
    | Shape.sphere => object_point - point 0 0 0
    | Shape.test => point 0 0 0
    | Shape.plane => point 0 1 0
  let inv2 ← o.transform.inverse
  let world_normal := (inv2.transpose).mulTuple object_normal
  let world_normal : Tuple := { world_normal with w := 0 }
  pure world_normal.normalize

/-- `Object::pattern_at` from src/shapes.rs: with a pattern set, two inverse
transforms (object, then pattern) are applied before evaluating the pattern;
otherwise the flat material colour. -/
def Object.pattern_at (o : Object) (world_point : Tuple) : Option Colour :=
  match o.material.pattern with
  | some pat => do
      let inv1 ← o.transform.inverse
      let object_point := inv1.mulTuple world_point
      let inv2 ← pat.transformation.inverse
      let pattern_point := inv2.mulTuple object_point
      pure (pat.pattern_at pattern_point)
  | none => pure o.material.colour

/-- `Ray` from src/ray.rs. -/
structure Ray where
  origin : Tuple
  direction : Tuple

/-- `Ray::position`. -/
def Ray.position (r : Ray) (t : ℝ) : Tuple :=
  r.origin + r.direction * t

/-- `Ray::transform`. -/
def Ray.transform (r : Ray) (m : Matrix4x4) : Ray :=
  ⟨m.mulTuple r.origin, m.mulTuple r.direction⟩

/-- `Intersection` from src/ray.rs.  Note that the Rust `PartialEq`/`Ord` on
`Intersection` compare the `t` field only; call sites that use `==` on
intersections are therefore modelled as comparisons of the `t` fields. -/
structure Intersection where
  t : ℝ
  object : Object

/-- `Ray::intersect` from src/ray.rs.  `object.transform.inverse()` may
panic (`none`).  In the `Plane` branch the source tests the y-component of
the UNTRANSFORMED ray (`self.direction.y`), while `t` is computed from the
transformed ray. -/
def Ray.intersect (r : Ray) (object : Object) : Option (List Intersection) := do
  let inv ← object.transform.inverse
  let transformed_ray := r.transform inv
  match object.shape with
  | Shape.sphere =>
      let origin_to_center := transformed_ray.origin - point 0 0 0
      let a := transformed_ray.direction.dot transformed_ray.direction
      let b := 2 * transformed_ray.direction.dot origin_to_center
      let c := origin_to_center.dot origin_to_center - 1
      let discriminant := b * b - 4 * a * c
      if discriminant < 0 then
        pure []
      else
        let t1 := (-b - Real.sqrt discriminant) / (2 * a)
        let t2 := (-b + Real.sqrt discriminant) / (2 * a)
        pure [⟨t1, object⟩, ⟨t2, object⟩]
  | Shape.test => pure []
  | Shape.plane =>
      if |r.direction.y| < DEFAULT_EPSILON then
        pure []
      else
        pure [⟨(-transformed_ray.origin.y) / transformed_ray.direction.y, object⟩]

/-- `Intersections` from src/ray.rs. -/
structure Intersections where
  inters : List Intersection

/-- One insertion step of a stable ascending-by-`t` sort. -/
def insertInter (x : Intersection) : List Intersection → List Intersection
  | [] => [x]
  | y :: ys => if x.t < y.t then x :: y :: ys else y :: insertInter x ys

/-- The stable sort in `Intersections::new` (Rust `sort` with the `Ord` that
compares `t` by `total_cmp`): modelled as a stable insertion sort, which
produces the same list — ascending by `t`, ties kept in input order. -/
def sortInters (l : List Intersection) : List Intersection :=
  l.foldl (fun acc x => insertInter x acc) []

/-- `Intersections::new`: sorts ascending by `t` on construction. -/
def Intersections.new (l : List Intersection) : Intersections :=
  ⟨sortInters l⟩

/-- The scan loop of `Intersections::hit`: the first element with `t > 0`. -/
def hitLoop : List Intersection → Option Intersection
  | [] => none
  | x :: rest => if 0 < x.t then some x else hitLoop rest

/-- `Intersections::hit`. -/
def Intersections.hit (xs : Intersections) : Option Intersection :=
  hitLoop xs.inters

open Classical in
/-- The container-toggle of the n1/n2 walk in `Ray::prepare_computations`:
remove the first occurrence of the object (by the structural `PartialEq` of
`Object`) if present, otherwise push it at the end of the vector. -/
def toggleObject (o : Object) : List Object → List Object
  | [] => [o]
  | c :: cs => if c = o then cs else c :: toggleObject o cs

/-- `containers.last()` mapped to its refractive index, 1.0 for the empty
stack. -/
def lastRefractive (cs : List Object) : ℝ :=
  match cs.getLast? with
  | some o => o.material.refractive_index
  | none => 1

/-- The n1/n2 loop of `Ray::prepare_computations`: walk the sorted list with
a container stack; at the first element `x` with `x == *inter` (the
`PartialEq` of `Intersection`, i.e. equality of `t` alone) take n1 from the
stack top before toggling `x.object` and n2 after, then break.  If the loop
runs out, n1 and n2 keep their initial value 1.0. -/
def refractionWalk (inter : Intersection) : List Intersection → List Object → ℝ × ℝ
  | [], _ => (1, 1)
  | x :: rest, containers =>
      if x.t = inter.t then
        (lastRefractive containers, lastRefractive (toggleObject x.object containers))
      else
        refractionWalk inter rest (toggleObject x.object containers)

/-- `Computations` from src/ray.rs. -/
structure Computations where
  t : ℝ
  object : Object
  point : Tuple
  normalv : Tuple
  eyev : Tuple
  inside : Bool
  over_point : Tuple
  under_point : Tuple
  reflectv : Tuple
  n1 : ℝ
  n2 : ℝ

/-- `Ray::prepare_computations` from src/ray.rs; `normal_at` may panic. -/
def Ray.prepare_computations (r : Ray) (inter : Intersection) (inters : Intersections) :
    Option Computations := do
  let p := r.position inter.t
  let eyev := -r.direction
  let n ← inter.object.normal_at p
  let flipped := if n.dot eyev < 0 then (true, vector 0 0 0 - n) else (false, n)
  let inside := flipped.1
  let normalv := flipped.2
  let over_point := p + normalv * DEFAULT_EPSILON
  let under_point := p - normalv * DEFAULT_EPSILON
  let reflectv := r.direction.reflect normalv
  let nn := refractionWalk inter inters.inters []
  pure
    { t := inter.t
      object := inter.object
      point := p
      normalv := normalv
      eyev := eyev
      inside := inside
      over_point := over_point
      under_point := under_point
      reflectv := reflectv
      n1 := nn.1
      n2 := nn.2 }

/-- `Light` from src/ray.rs. -/
structure Light where
  position : Tuple
  intensity : Colour

/-- `lighting` from src/ray.rs; `pattern_at` may panic. -/
def lighting (object : Object) (light : Light) (pt eyev normalv : Tuple)
    (in_shadow : Bool) : Option Colour := do
  let pattern_colour ← object.pattern_at pt
  let effective_colour := pattern_colour * light.intensity
  let ambient := effective_colour * object.material.ambient
  let lightv := (light.position - pt).normalize
  let light_dot_normal := lightv.dot normalv
  let ds : Colour × Colour :=
    if in_shadow then
      (BLACK, BLACK)
    else if light_dot_normal < 0 then
      (BLACK, BLACK)
    else
      let diffuse := effective_colour * object.material.diffuse * (lightv.dot normalv)
      let reflectv := (-lightv).reflect normalv
      let reflect_dot_eye := reflectv.dot eyev
      let specular :=
        if reflect_dot_eye ≤ 0 then
          BLACK
        else
          light.intensity * object.material.specular *
            Real.rpow reflect_dot_eye object.material.shininess
      (diffuse, specular)
  pure (ambient + ds.1 + ds.2)

/-- `World` from src/world.rs. -/
structure World where
  objects : List Object
  lights : List Light

/-- `World::intersect`: concatenate the per-object intersections in object
order (a panic in any aborts the scan), then sort into one
`Intersections`. -/
def World.intersect (w : World) (r : Ray) : Option Intersections := do
  let xs ← w.objects.mapM (fun o => r.intersect o)
  pure (Intersections.new xs.flatten)

/-- `World::is_shadowed` from src/world.rs: indexes `lights[0]`, an
out-of-bounds panic (`none`) when the world has no lights. -/
def World.is_shadowed (w : World) (pt : Tuple) : Option Bool :=
  match w.lights with
  | [] => none
  | light :: _ => do
      let v := light.position - pt
      let distance := v.magnitude
      let direction := v.normalize
      let r : Ray := ⟨pt, direction⟩
      let inters ← w.intersect r
      match inters.hit with
      | some h => pure (if h.t < distance then true else false)
      | none => pure false

mutual

/-- `World::shade_hit` from src/world.rs: shadow test, `lighting` with
`lights[0]` (an out-of-bounds panic when there are no lights), plus the
reflected and refracted contributions at the same depth. -/
def World.shade_hit (w : World) (comps : Computations) (depth : ℕ) : Option Colour := do
  let shadowed ← w.is_shadowed comps.over_point
  match w.lights with
  | [] => none
  | light :: _ => do
      let surface_colour ←
        lighting comps.object light comps.point comps.eyev comps.normalv shadowed
      let reflected ← w.reflected_colour comps depth
      let refracted ← w.refracted_colour comps depth
      pure (surface_colour + reflected + refracted)
termination_by (depth, 1)

/-- `World::colour_at` from src/world.rs. -/
def World.colour_at (w : World) (r : Ray) (depth : ℕ) : Option Colour := do
  let inters ← w.intersect r
  match inters.hit with
  | some h => do
      let comps ← r.prepare_computations h inters
      w.shade_hit comps depth
  | none => pure BLACK
termination_by (depth, 2)

/-- `World::reflected_colour` from src/world.rs: black at depth 0 or for a
non-reflective material, otherwise a recursive `colour_at` at depth - 1
scaled by the reflective coefficient. -/
def World.reflected_colour (w : World) (comps : Computations) (depth : ℕ) : Option Colour :=
  match depth with
  | 0 => pure BLACK
  | d + 1 =>
      if comps.object.material.reflective = 0 then
        pure BLACK
      else do
        let reflected_ray : Ray := ⟨comps.over_point, comps.reflectv⟩
        let colour ← w.colour_at reflected_ray d
        pure (colour * comps.object.material.reflective)
termination_by (depth, 0)

/-- `World::refracted_colour` from src/world.rs: black at depth 0, for an
opaque material, or under total internal reflection, otherwise a recursive
`colour_at` at depth - 1 scaled by the transparency. -/
def World.refracted_colour (w : World) (comps : Computations) (depth : ℕ) : Option Colour :=
  let nRatio := comps.n1 / comps.n2
  let cosI := comps.eyev.dot comps.normalv
  let sin2T := nRatio ^ 2 * (1 - cosI ^ 2)
  match depth with
  | 0 => pure BLACK
  | d + 1 =>
      if comps.object.material.transparency = 0 then
        pure BLACK
      else if 1 < sin2T then
        pure BLACK
      else do
        let cosT := Real.sqrt (1 - sin2T)
        let direction := comps.normalv * (nRatio * cosI - cosT) - comps.eyev * nRatio
        let refracted_ray : Ray := ⟨comps.under_point, direction⟩
        let colour ← w.colour_at refracted_ray d
        pure (colour * comps.object.material.transparency)
termination_by (depth, 0)

end

open Classical in
/-- The n1/n2 walk as claim C2 words it: the same container-stack iteration,
but with the processing stop at the hit itself — the given `inter`, compared
by full structural identity rather than by the `t`-only `PartialEq` the
source uses.  Kept for comparison with `refractionWalk`. -/
def refractionWalkSpec (inter : Intersection) : List Intersection → List Object → ℝ × ℝ
  | [], _ => (1, 1)
  | x :: rest, containers =>
      if x = inter then
        (lastRefractive containers, lastRefractive (toggleObject x.object containers))
      else
        refractionWalkSpec inter rest (toggleObject x.object containers)

/-- Invertibility as claim C5 words it: the determinant is non-zero under an
epsilon-aware comparison, i.e. at least `DEFAULT_EPSILON` away from 0.  Kept
for comparison with `Matrix4x4.invertible`, which the source implements as
an exact `!= 0.0` test. -/
def Matrix4x4.invertibleEps (A : Matrix4x4) : Prop :=
  DEFAULT_EPSILON ≤ |A.determinant|

/-!  Concrete inputs used by counterexamples and witnesses. -/

/-- A diagonal matrix whose determinant 1e-6 is non-zero but smaller than
`DEFAULT_EPSILON`. -/
def nearZeroDetMatrix : Matrix4x4 :=
  ⟨1 / 1000000, 0, 0, 0,
   0, 1, 0, 0,
   0, 0, 1, 0,
   0, 0, 0, 1⟩

/-- The 90-degree rotation about the x axis (`rot_x(pi/2)`), written with its
exact entries. -/
def rotX90 : Matrix4x4 :=
  ⟨1, 0, 0, 0,
   0, 0, -1, 0,
   0, 1, 0, 0,
   0, 0, 0, 1⟩

/-- A plane rotated by 90 degrees about the x axis: its surface in world
space is the plane z = 0. -/
def rotatedPlane : Object :=
  { transform := rotX90, material := Material.new, shape := Shape.plane }

/-- A transparent test object with refractive index 1.5 and the identity
transform. -/
def glassA : Object :=
  { transform := identity
    material := { Material.new with transparency := 1, refractive_index := 1.5 }
    shape := Shape.test }

/-- A transparent test object with refractive index 2.5 and the identity
transform; differs from `glassA` only in the refractive index. -/
def glassB : Object :=
  { transform := identity
    material := { Material.new with transparency := 1, refractive_index := 2.5 }
    shape := Shape.test }

/-- The hit-selection example list of the spec: t values 5, 7, -3, 2. -/
def hitExampleList : List Intersection :=
  [⟨5, Object.new⟩, ⟨7, Object.new⟩, ⟨-3, Object.new⟩, ⟨2, Object.new⟩]

/-- A world with one default plane and no lights. -/
def noLightWorld : World :=
  ⟨[Object.new_plane], []⟩

/-!  Helper lemmas: unfolding equations for the arithmetic instances and
evaluations of the identity matrix, shared by several claim proofs. -/

lemma Tuple.tadd_def (a b : Tuple) :
    a + b = ⟨a.x + b.x, a.y + b.y, a.z + b.z, a.w + b.w⟩ := rfl

lemma Tuple.tsub_def (a b : Tuple) :
    a - b = ⟨a.x - b.x, a.y - b.y, a.z - b.z, a.w - b.w⟩ := rfl

lemma Tuple.tneg_def (a : Tuple) :
    -a = ⟨0 - a.x, 0 - a.y, 0 - a.z, 0 - a.w⟩ := rfl

lemma Tuple.tsmul_def (a : Tuple) (s : ℝ) :
    a * s = ⟨a.x * s, a.y * s, a.z * s, a.w * s⟩ := rfl

lemma Colour.cadd_def (a b : Colour) :
    a + b = ⟨a.red + b.red, a.green + b.green, a.blue + b.blue⟩ := rfl

lemma Colour.csub_def (a b : Colour) :
    a - b = ⟨a.red - b.red, a.green - b.green, a.blue - b.blue⟩ := rfl

lemma Colour.cmul_def (a b : Colour) :
    a * b = ⟨a.red * b.red, a.green * b.green, a.blue * b.blue⟩ := rfl

lemma Colour.csmul_def (a : Colour) (s : ℝ) :
    a * s = ⟨a.red * s, a.green * s, a.blue * s⟩ := rfl

lemma Colour.add_black (c : Colour) : c + BLACK = c := by
  cases c
  simp [Colour.cadd_def, BLACK]

/-!  Generic evaluation lemmas for the matrix operations: the index
arithmetic of the unrolled loops reduces definitionally, leaving plain field
formulas that `norm_num`/`ring` can work with. -/

lemma Matrix4x4.submatrix_eq00 (A : Matrix4x4) :
    A.submatrix 0 0 = ⟨A.v11, A.v12, A.v13,
      A.v21, A.v22, A.v23, A.v31, A.v32, A.v33⟩ := rfl

lemma Matrix4x4.submatrix_eq01 (A : Matrix4x4) :
    A.submatrix 0 1 = ⟨A.v10, A.v12, A.v13,
      A.v20, A.v22, A.v23, A.v30, A.v32, A.v33⟩ := rfl

lemma Matrix4x4.submatrix_eq02 (A : Matrix4x4) :
    A.submatrix 0 2 = ⟨A.v10, A.v11, A.v13,
      A.v20, A.v21, A.v23, A.v30, A.v31, A.v33⟩ := rfl

lemma Matrix4x4.submatrix_eq03 (A : Matrix4x4) :
    A.submatrix 0 3 = ⟨A.v10, A.v11, A.v12,
      A.v20, A.v21, A.v22, A.v30, A.v31, A.v32⟩ := rfl

lemma Matrix4x4.submatrix_eq10 (A : Matrix4x4) :
    A.submatrix 1 0 = ⟨A.v01, A.v02, A.v03,
      A.v21, A.v22, A.v23, A.v31, A.v32, A.v33⟩ := rfl

lemma Matrix4x4.submatrix_eq11 (A : Matrix4x4) :
    A.submatrix 1 1 = ⟨A.v00, A.v02, A.v03,
      A.v20, A.v22, A.v23, A.v30, A.v32, A.v33⟩ := rfl

lemma Matrix4x4.submatrix_eq12 (A : Matrix4x4) :
    A.submatrix 1 2 = ⟨A.v00, A.v01, A.v03,
      A.v20, A.v21, A.v23, A.v30, A.v31, A.v33⟩ := rfl

lemma Matrix4x4.submatrix_eq13 (A : Matrix4x4) :
    A.submatrix 1 3 = ⟨A.v00, A.v01, A.v02,
      A.v20, A.v21, A.v22, A.v30, A.v31, A.v32⟩ := rfl

lemma Matrix4x4.submatrix_eq20 (A : Matrix4x4) :
    A.submatrix 2 0 = ⟨A.v01, A.v02, A.v03,
      A.v11, A.v12, A.v13, A.v31, A.v32, A.v33⟩ := rfl

lemma Matrix4x4.submatrix_eq21 (A : Matrix4x4) :
    A.submatrix 2 1 = ⟨A.v00, A.v02, A.v03,
      A.v10, A.v12, A.v13, A.v30, A.v32, A.v33⟩ := rfl

lemma Matrix4x4.submatrix_eq22 (A : Matrix4x4) :
    A.submatrix 2 2 = ⟨A.v00, A.v01, A.v03,
      A.v10, A.v11, A.v13, A.v30, A.v31, A.v33⟩ := rfl

lemma Matrix4x4.submatrix_eq23 (A : Matrix4x4) :
    A.submatrix 2 3 = ⟨A.v00, A.v01, A.v02,
      A.v10, A.v11, A.v12, A.v30, A.v31, A.v32⟩ := rfl

lemma Matrix4x4.submatrix_eq30 (A : Matrix4x4) :
    A.submatrix 3 0 = ⟨A.v01, A.v02, A.v03,
      A.v11, A.v12, A.v13, A.v21, A.v22, A.v23⟩ := rfl

lemma Matrix4x4.submatrix_eq31 (A : Matrix4x4) :
    A.submatrix 3 1 = ⟨A.v00, A.v02, A.v03,
      A.v10, A.v12, A.v13, A.v20, A.v22, A.v23⟩ := rfl

lemma Matrix4x4.submatrix_eq32 (A : Matrix4x4) :
    A.submatrix 3 2 = ⟨A.v00, A.v01, A.v03,
      A.v10, A.v11, A.v13, A.v20, A.v21, A.v23⟩ := rfl

lemma Matrix4x4.submatrix_eq33 (A : Matrix4x4) :
    A.submatrix 3 3 = ⟨A.v00, A.v01, A.v02,
      A.v10, A.v11, A.v12, A.v20, A.v21, A.v22⟩ := rfl

lemma Matrix3x3.det3_eq (B : Matrix3x3) :
    B.determinant =
      B.v00 * (B.v11 * B.v22 - B.v12 * B.v21) - B.v10 * (B.v01 * B.v22 - B.v02 * B.v21) +
        B.v20 * (B.v01 * B.v12 - B.v02 * B.v11) := by
  have h : B.determinant =
      B.v00 * (B.v11 * B.v22 - B.v12 * B.v21) + B.v10 * -(B.v01 * B.v22 - B.v02 * B.v21) +
        B.v20 * (B.v01 * B.v12 - B.v02 * B.v11) := rfl
  rw [h]
  ring

lemma Matrix4x4.det4_eq (A : Matrix4x4) :
    A.determinant =
      A.v00 * (A.submatrix 0 0).determinant - A.v10 * (A.submatrix 1 0).determinant +
        A.v20 * (A.submatrix 2 0).determinant - A.v30 * (A.submatrix 3 0).determinant := by
  have h : A.determinant =
      A.v00 * (A.submatrix 0 0).determinant + A.v10 * -(A.submatrix 1 0).determinant +
        A.v20 * (A.submatrix 2 0).determinant + A.v30 * -(A.submatrix 3 0).determinant := rfl
  rw [h]
  ring

lemma Matrix4x4.inverseVals_eq (A : Matrix4x4) :
    A.inverseVals =
    ⟨(A.submatrix 0 0).determinant / A.determinant,
      -(A.submatrix 1 0).determinant / A.determinant,
      (A.submatrix 2 0).determinant / A.determinant,
      -(A.submatrix 3 0).determinant / A.determinant,
      -(A.submatrix 0 1).determinant / A.determinant,
      (A.submatrix 1 1).determinant / A.determinant,
      -(A.submatrix 2 1).determinant / A.determinant,
      (A.submatrix 3 1).determinant / A.determinant,
      (A.submatrix 0 2).determinant / A.determinant,
      -(A.submatrix 1 2).determinant / A.determinant,
      (A.submatrix 2 2).determinant / A.determinant,
      -(A.submatrix 3 2).determinant / A.determinant,
      -(A.submatrix 0 3).determinant / A.determinant,
      (A.submatrix 1 3).determinant / A.determinant,
      -(A.submatrix 2 3).determinant / A.determinant,
      (A.submatrix 3 3).determinant / A.determinant⟩ := rfl

lemma Matrix4x4.mulTuple_eq (A : Matrix4x4) (t : Tuple) :
    A.mulTuple t =
      ⟨A.v00 * t.x + A.v01 * t.y + A.v02 * t.z + A.v03 * t.w,
       A.v10 * t.x + A.v11 * t.y + A.v12 * t.z + A.v13 * t.w,
       A.v20 * t.x + A.v21 * t.y + A.v22 * t.z + A.v23 * t.w,
       A.v30 * t.x + A.v31 * t.y + A.v32 * t.z + A.v33 * t.w⟩ := rfl

lemma identity_determinant : identity.determinant = 1 := by
  simp only [Matrix4x4.det4_eq, Matrix4x4.submatrix_eq00, Matrix4x4.submatrix_eq10, Matrix4x4.submatrix_eq20, Matrix4x4.submatrix_eq30,
    Matrix3x3.det3_eq, identity]
  norm_num

lemma identity_inverseVals : identity.inverseVals = identity := by
  simp only [Matrix4x4.inverseVals_eq, Matrix4x4.det4_eq,
    Matrix4x4.submatrix_eq00, Matrix4x4.submatrix_eq01, Matrix4x4.submatrix_eq02, Matrix4x4.submatrix_eq03, Matrix4x4.submatrix_eq10, Matrix4x4.submatrix_eq11, Matrix4x4.submatrix_eq12, Matrix4x4.submatrix_eq13, Matrix4x4.submatrix_eq20, Matrix4x4.submatrix_eq21, Matrix4x4.submatrix_eq22, Matrix4x4.submatrix_eq23, Matrix4x4.submatrix_eq30, Matrix4x4.submatrix_eq31, Matrix4x4.submatrix_eq32, Matrix4x4.submatrix_eq33,
    Matrix3x3.det3_eq, identity]
  norm_num

lemma identity_inverse : identity.inverse = some identity := by
  rw [Matrix4x4.inverse, identity_determinant, identity_inverseVals]
  norm_num

lemma identity_mulTuple (t : Tuple) : identity.mulTuple t = t := by
  cases t
  simp only [Matrix4x4.mulTuple_eq, identity]
  norm_num

/-- C8: `Material::new()` returns white colour, ambient 0.1, diffuse 0.9,
specular 0.9, shininess 200, no pattern, reflective 0, transparency 0 and
refractive index 1. -/
theorem material_new_defaults :
    Material.new.colour = ⟨1, 1, 1⟩ ∧ Material.new.ambient = 0.1 ∧
      Material.new.diffuse = 0.9 ∧ Material.new.specular = 0.9 ∧
      Material.new.shininess = 200 ∧ Material.new.pattern = none ∧
      Material.new.reflective = 0 ∧ Material.new.transparency = 0 ∧
      Material.new.refractive_index = 1 := by
  refine ⟨rfl, rfl, rfl, rfl, rfl, rfl, rfl, rfl, rfl⟩

/-- C10: `Tuple::normalize` is total — it divides every component by the
magnitude with raw division, with no panic branch even at magnitude 0 —
whereas the scalar division operator panics (`none`) exactly when the
divisor is 0 and otherwise divides all four components by it. -/
theorem normalize_total_divScalar_panics :
    (∀ t : Tuple, t.normalize =
        ⟨t.x / t.magnitude, t.y / t.magnitude, t.z / t.magnitude, t.w / t.magnitude⟩) ∧
    (∀ (t : Tuple) (s : ℝ), t.divScalar s = none ↔ s = 0) ∧
    (∀ (t : Tuple) (s : ℝ), s ≠ 0 →
        t.divScalar s = some ⟨t.x / s, t.y / s, t.z / s, t.w / s⟩) := by
  refine ⟨fun t => rfl, fun t s => ?_, fun t s hs => ?_⟩
  · unfold Tuple.divScalar
    split <;> simp_all
  · unfold Tuple.divScalar
    simp [hs]

/-- Witness for C10: the zero tuple (magnitude 0) is normalized without a
panic, dividing by the zero magnitude; scalar division by 0 panics and by 2
divides each component. -/
theorem normalize_total_divScalar_panics_witness :
    Tuple.normalize ⟨0, 0, 0, 0⟩ =
        ⟨0 / Tuple.magnitude ⟨0, 0, 0, 0⟩, 0 / Tuple.magnitude ⟨0, 0, 0, 0⟩,
         0 / Tuple.magnitude ⟨0, 0, 0, 0⟩, 0 / Tuple.magnitude ⟨0, 0, 0, 0⟩⟩ ∧
      Tuple.magnitude ⟨0, 0, 0, 0⟩ = 0 ∧
      Tuple.divScalar ⟨1, 2, 3, 4⟩ 0 = none ∧
      Tuple.divScalar ⟨1, 2, 3, 4⟩ 2 = some ⟨1 / 2, 2 / 2, 3 / 2, 4 / 2⟩ := by
  refine ⟨normalize_total_divScalar_panics.1 _, ?_,
    (normalize_total_divScalar_panics.2.1 _ _).mpr rfl,
    normalize_total_divScalar_panics.2.2 _ _ (by norm_num)⟩
  simp [Tuple.magnitude]

lemma nearZeroDetMatrix_determinant : nearZeroDetMatrix.determinant = 1 / 1000000 := by
  simp only [Matrix4x4.det4_eq, Matrix4x4.submatrix_eq00, Matrix4x4.submatrix_eq10,
    Matrix4x4.submatrix_eq20, Matrix4x4.submatrix_eq30, Matrix3x3.det3_eq,
    nearZeroDetMatrix]
  norm_num

/-- C5 (amended): `invertible` is the exact test `determinant ≠ 0` (not an
epsilon-aware one), `inverse` panics (`none`) exactly when the determinant is
exactly 0, and on every matrix with non-zero determinant it returns the
cofactor matrix divided by the determinant with the transpose folded into
the write order: the entry at row r, column c is `cofactor(c, r) / det`. -/
theorem inverse_exact_singularity_test (A : Matrix4x4) :
    (A.invertible ↔ A.determinant ≠ 0) ∧
    (A.inverse = none ↔ A.determinant = 0) ∧
    (A.determinant ≠ 0 →
      A.inverse = some
        ⟨A.cofactor 0 0 / A.determinant, A.cofactor 1 0 / A.determinant,
         A.cofactor 2 0 / A.determinant, A.cofactor 3 0 / A.determinant,
         A.cofactor 0 1 / A.determinant, A.cofactor 1 1 / A.determinant,
         A.cofactor 2 1 / A.determinant, A.cofactor 3 1 / A.determinant,
         A.cofactor 0 2 / A.determinant, A.cofactor 1 2 / A.determinant,
         A.cofactor 2 2 / A.determinant, A.cofactor 3 2 / A.determinant,
         A.cofactor 0 3 / A.determinant, A.cofactor 1 3 / A.determinant,
         A.cofactor 2 3 / A.determinant, A.cofactor 3 3 / A.determinant⟩) := by
  refine ⟨Iff.rfl, ?_, fun h => ?_⟩
  · unfold Matrix4x4.inverse
    split <;> simp_all
  · unfold Matrix4x4.inverse
    rw [if_neg h]
    rfl

/-- Witness for C5: the identity matrix has determinant 1, is invertible, and
its inverse is computed (no panic) as the cofactor matrix over the
determinant. -/
theorem inverse_exact_singularity_test_witness :
    (identity.invertible ↔ identity.determinant ≠ 0) ∧
    identity.inverse = some
        ⟨identity.cofactor 0 0 / identity.determinant, identity.cofactor 1 0 / identity.determinant,
         identity.cofactor 2 0 / identity.determinant, identity.cofactor 3 0 / identity.determinant,
         identity.cofactor 0 1 / identity.determinant, identity.cofactor 1 1 / identity.determinant,
         identity.cofactor 2 1 / identity.determinant, identity.cofactor 3 1 / identity.determinant,
         identity.cofactor 0 2 / identity.determinant, identity.cofactor 1 2 / identity.determinant,
         identity.cofactor 2 2 / identity.determinant, identity.cofactor 3 2 / identity.determinant,
         identity.cofactor 0 3 / identity.determinant, identity.cofactor 1 3 / identity.determinant,
         identity.cofactor 2 3 / identity.determinant, identity.cofactor 3 3 / identity.determinant⟩ :=
  ⟨(inverse_exact_singularity_test identity).1,
    (inverse_exact_singularity_test identity).2.2 (by rw [identity_determinant]; norm_num)⟩

/-- Counterexample for C5: `nearZeroDetMatrix` has the near-zero determinant
1e-6, so under the claim's epsilon-aware comparison it would not count as
invertible and `inverse` would have to fail; but the source's exact `!= 0.0`
test declares it invertible and `inverse` returns a value. -/
theorem inverse_eps_counterexample :
    nearZeroDetMatrix.determinant = 1 / 1000000 ∧
    ¬ nearZeroDetMatrix.invertibleEps ∧
    nearZeroDetMatrix.invertible ∧
    nearZeroDetMatrix.inverse = some nearZeroDetMatrix.inverseVals := by
  refine ⟨nearZeroDetMatrix_determinant, ?_, ?_, ?_⟩
  · rw [Matrix4x4.invertibleEps, nearZeroDetMatrix_determinant, DEFAULT_EPSILON]
    intro h
    rw [abs_of_pos (by norm_num)] at h
    norm_num at h
  · rw [Matrix4x4.invertible, nearZeroDetMatrix_determinant]
    norm_num
  · rw [Matrix4x4.inverse, nearZeroDetMatrix_determinant, if_neg (by norm_num)]

lemma mem_insertInter {x a : Intersection} :
    ∀ {l : List Intersection}, a ∈ insertInter x l ↔ a = x ∨ a ∈ l := by
  intro l
  induction l with
  | nil => simp [insertInter]
  | cons y ys ih =>
    rw [insertInter]
    split
    · simp [List.mem_cons]
    · simp only [List.mem_cons, ih]
      tauto

lemma sorted_insertInter {x : Intersection} :
    ∀ {l : List Intersection}, l.Pairwise (fun p q => p.t ≤ q.t) →
      (insertInter x l).Pairwise (fun p q => p.t ≤ q.t) := by
  intro l
  induction l with
  | nil =>
    intro _
    simp [insertInter]
  | cons y ys ih =>
    intro h
    rw [List.pairwise_cons] at h
    obtain ⟨hy, hys⟩ := h
    rw [insertInter]
    split
    · case isTrue hlt =>
      refine List.Pairwise.cons ?_ (List.Pairwise.cons hy hys)
      intro b hb
      rcases List.mem_cons.mp hb with rfl | hbys
      · exact le_of_lt hlt
      · exact le_trans (le_of_lt hlt) (hy b hbys)
    · case isFalse hge =>
      refine List.Pairwise.cons ?_ (ih hys)
      intro b hb
      rcases mem_insertInter.mp hb with rfl | hbys
      · exact le_of_not_lt hge
      · exact hy b hbys

lemma foldl_insertInter_sorted (l : List Intersection) :
    ∀ acc : List Intersection, acc.Pairwise (fun p q => p.t ≤ q.t) →
      (l.foldl (fun acc x => insertInter x acc) acc).Pairwise (fun p q => p.t ≤ q.t) := by
  induction l with
  | nil =>
    intro acc hacc
    simpa using hacc
  | cons y ys ih =>
    intro acc hacc
    rw [List.foldl_cons]
    exact ih _ (sorted_insertInter hacc)

lemma foldl_insertInter_mem (l : List Intersection) :
    ∀ (acc : List Intersection) (a : Intersection),
      a ∈ l.foldl (fun acc x => insertInter x acc) acc ↔ a ∈ acc ∨ a ∈ l := by
  induction l with
  | nil => simp
  | cons y ys ih =>
    intro acc a
    rw [List.foldl_cons, ih, mem_insertInter]
    simp only [List.mem_cons]
    tauto

lemma sortInters_sorted (l : List Intersection) :
    (sortInters l).Pairwise (fun p q => p.t ≤ q.t) :=
  foldl_insertInter_sorted l [] (by simp)

lemma mem_sortInters {l : List Intersection} {a : Intersection} :
    a ∈ sortInters l ↔ a ∈ l := by
  rw [sortInters, foldl_insertInter_mem]
  simp

lemma hitLoop_eq_none : ∀ {l : List Intersection}, hitLoop l = none ↔ ∀ a ∈ l, ¬ 0 < a.t := by
  intro l
  induction l with
  | nil => simp [hitLoop]
  | cons y ys ih =>
    rw [hitLoop]
    split
    · case isTrue hy =>
      simp only [List.mem_cons]
      constructor
      · intro h
        exact absurd h (by simp)
      · intro h
        exact absurd hy (h y (Or.inl rfl))
    · case isFalse hy =>
      simp only [List.mem_cons, ih]
      constructor
      · intro h a ha
        rcases ha with rfl | ha
        · exact hy
        · exact h a ha
      · intro h a ha
        exact h a (Or.inr ha)

lemma hitLoop_eq_some :
    ∀ {l : List Intersection} {a : Intersection},
      l.Pairwise (fun p q => p.t ≤ q.t) → hitLoop l = some a →
        a ∈ l ∧ 0 < a.t ∧ ∀ b ∈ l, 0 < b.t → a.t ≤ b.t := by
  intro l
  induction l with
  | nil =>
    intro a _ h
    simp [hitLoop] at h
  | cons y ys ih =>
    intro a hs h
    rw [List.pairwise_cons] at hs
    obtain ⟨hy, hys⟩ := hs
    rw [hitLoop] at h
    split at h
    · case isTrue hyt =>
      obtain rfl : y = a := by simpa using h
      refine ⟨List.mem_cons_self _ _, hyt, ?_⟩
      intro b hb _
      rcases List.mem_cons.mp hb with rfl | hb
      · exact le_refl _
      · exact hy b hb
    · case isFalse hyt =>
      obtain ⟨ha, hat, hmin⟩ := ih hys h
      refine ⟨List.mem_cons_of_mem _ ha, hat, ?_⟩
      intro b hb hbt
      rcases List.mem_cons.mp hb with rfl | hb
      · exact absurd hbt hyt
      · exact hmin b hb hbt

/-- C3: for every list of intersections, `hit()` on `Intersections::new(list)`
returns none exactly when no element has t > 0, and any returned intersection
is an element of the list with positive t that is minimal among the positive
t values. -/
theorem hit_selects_min_positive (l : List Intersection) :
    ((Intersections.new l).hit = none ↔ ∀ a ∈ l, a.t ≤ 0) ∧
    (∀ a, (Intersections.new l).hit = some a →
        a ∈ l ∧ 0 < a.t ∧ ∀ b ∈ l, 0 < b.t → a.t ≤ b.t) := by
  constructor
  · rw [Intersections.hit, Intersections.new, hitLoop_eq_none]
    constructor
    · intro h a ha
      exact not_lt.mp (h a (mem_sortInters.mpr ha))
    · intro h a ha
      exact not_lt.mpr (h a (mem_sortInters.mp ha))
  · intro a h
    rw [Intersections.hit, Intersections.new] at h
    obtain ⟨ha, hat, hmin⟩ := hitLoop_eq_some (sortInters_sorted l) h
    exact ⟨mem_sortInters.mp ha, hat, fun b hb hbt => hmin b (mem_sortInters.mpr hb) hbt⟩

/-- Witness for C3: on the spec's example t values [5, 7, -3, 2] the hit is
the intersection at t = 2, and 2 is minimal among the positive t values. -/
theorem hit_selects_min_positive_witness :
    (Intersections.new hitExampleList).hit = some ⟨2, Object.new⟩ ∧
    (⟨2, Object.new⟩ : Intersection) ∈ hitExampleList ∧
    (0 : ℝ) < 2 ∧ ∀ b ∈ hitExampleList, 0 < b.t → (2 : ℝ) ≤ b.t := by
  have hEval : (Intersections.new hitExampleList).hit = some ⟨2, Object.new⟩ := by
    rw [Intersections.new, Intersections.hit, hitExampleList]
    norm_num [sortInters, insertInter, hitLoop]
  have h := (hit_selects_min_positive hitExampleList).2 _ hEval
  exact ⟨hEval, h.1, h.2.1, h.2.2⟩

/-- C4: on a sphere-shaped object whose transform inverts to `Mi`,
`Ray::intersect` solves the quadratic of the ray transformed by `Mi`:
a negative discriminant gives the empty list, and otherwise exactly the two
roots `(-b ∓ sqrt(disc)) / (2a)` are returned, in order t1 ≤ t2 (equal for a
tangent, and possibly both negative). -/
theorem sphere_intersect_quadratic (r : Ray) (o : Object) (Mi : Matrix4x4)
    (a b c disc : ℝ)
    (hshape : o.shape = Shape.sphere)
    (hinv : o.transform.inverse = some Mi)
    (ha : a = (r.transform Mi).direction.dot (r.transform Mi).direction)
    (hb : b = 2 * (r.transform Mi).direction.dot ((r.transform Mi).origin - point 0 0 0))
    (hc : c = ((r.transform Mi).origin - point 0 0 0).dot
        ((r.transform Mi).origin - point 0 0 0) - 1)
    (hdisc : disc = b * b - 4 * a * c) :
    (disc < 0 → r.intersect o = some []) ∧
    (0 ≤ disc →
      r.intersect o =
          some [⟨(-b - Real.sqrt disc) / (2 * a), o⟩, ⟨(-b + Real.sqrt disc) / (2 * a), o⟩] ∧
        (-b - Real.sqrt disc) / (2 * a) ≤ (-b + Real.sqrt disc) / (2 * a)) := by
  have hA : 0 ≤ a := by
    rw [ha, Tuple.dot]
    have h1 := mul_self_nonneg (r.transform Mi).direction.x
    have h2 := mul_self_nonneg (r.transform Mi).direction.y
    have h3 := mul_self_nonneg (r.transform Mi).direction.z
    have h4 := mul_self_nonneg (r.transform Mi).direction.w
    linarith
  subst hdisc hc hb ha
  rw [Ray.intersect, hinv]
  simp only [Option.bind_eq_bind, Option.some_bind, hshape]
  constructor
  · intro h
    rw [if_pos h]
    rfl
  · intro h
    rw [if_neg (not_lt.mpr h)]
    refine ⟨rfl, ?_⟩
    rcases hA.lt_or_eq with hA | hA
    · rw [div_le_div_iff_of_pos_right (by linarith)]
      have := Real.sqrt_nonneg
        (2 * (r.transform Mi).direction.dot ((r.transform Mi).origin - point 0 0 0) *
            (2 * (r.transform Mi).direction.dot ((r.transform Mi).origin - point 0 0 0)) -
          4 * (r.transform Mi).direction.dot (r.transform Mi).direction *
            (((r.transform Mi).origin - point 0 0 0).dot ((r.transform Mi).origin - point 0 0 0) -
              1))
      linarith
    · rw [← hA]
      norm_num

lemma transform_identity (r : Ray) : r.transform identity = r := by
  cases r
  simp [Ray.transform, identity_mulTuple]

lemma sqrt_four : Real.sqrt 4 = 2 := by
  rw [show (4 : ℝ) = 2 ^ 2 by norm_num, Real.sqrt_sq (by norm_num : (0 : ℝ) ≤ 2)]

/-- Witness for C4: the ray from (0,0,-5) along (0,0,1) meets the unit sphere
at t = 4 and t = 6; the tangent ray from (0,1,-5) yields two equal
intersections at t = 5. -/
theorem sphere_intersect_quadratic_witness :
    Ray.intersect ⟨point 0 0 (-5), vector 0 0 1⟩ Object.new_sphere =
      some [⟨4, Object.new_sphere⟩, ⟨6, Object.new_sphere⟩] ∧
    Ray.intersect ⟨point 0 1 (-5), vector 0 0 1⟩ Object.new_sphere =
      some [⟨5, Object.new_sphere⟩, ⟨5, Object.new_sphere⟩] := by
  have hinv : Object.new_sphere.transform.inverse = some identity := by
    rw [show Object.new_sphere.transform = identity from rfl, identity_inverse]
  constructor
  · have h := (sphere_intersect_quadratic ⟨point 0 0 (-5), vector 0 0 1⟩ Object.new_sphere
      identity 1 (-10) 24 4 rfl hinv
      (by simp [transform_identity, Tuple.dot, vector])
      (by simp [transform_identity, Tuple.dot, Tuple.tsub_def, vector, point]; norm_num)
      (by simp [transform_identity, Tuple.dot, Tuple.tsub_def, vector, point]; norm_num)
      (by norm_num)).2 (by norm_num)
    rw [h.1]
    simp [sqrt_four]
    norm_num
  · have h := (sphere_intersect_quadratic ⟨point 0 1 (-5), vector 0 0 1⟩ Object.new_sphere
      identity 1 (-10) 25 0 rfl hinv
      (by simp [transform_identity, Tuple.dot, vector])
      (by simp [transform_identity, Tuple.dot, Tuple.tsub_def, vector, point]; norm_num)
      (by simp [transform_identity, Tuple.dot, Tuple.tsub_def, vector, point]; norm_num)
      (by norm_num)).2 (by norm_num)
    rw [h.1]
    simp [Real.sqrt_zero]
    norm_num

lemma rotX90_determinant : rotX90.determinant = 1 := by
  simp only [Matrix4x4.det4_eq, Matrix4x4.submatrix_eq00, Matrix4x4.submatrix_eq10,
    Matrix4x4.submatrix_eq20, Matrix4x4.submatrix_eq30, Matrix3x3.det3_eq, rotX90]
  norm_num

lemma rotX90_inverse :
    rotX90.inverse = some ⟨1, 0, 0, 0, 0, 0, 1, 0, 0, -1, 0, 0, 0, 0, 0, 1⟩ := by
  rw [Matrix4x4.inverse, rotX90_determinant, if_neg one_ne_zero, Matrix4x4.inverseVals_eq]
  simp only [rotX90_determinant]
  simp only [Matrix4x4.submatrix_eq00, Matrix4x4.submatrix_eq01, Matrix4x4.submatrix_eq02,
    Matrix4x4.submatrix_eq03, Matrix4x4.submatrix_eq10, Matrix4x4.submatrix_eq11,
    Matrix4x4.submatrix_eq12, Matrix4x4.submatrix_eq13, Matrix4x4.submatrix_eq20,
    Matrix4x4.submatrix_eq21, Matrix4x4.submatrix_eq22, Matrix4x4.submatrix_eq23,
    Matrix4x4.submatrix_eq30, Matrix4x4.submatrix_eq31, Matrix4x4.submatrix_eq32,
    Matrix4x4.submatrix_eq33, Matrix3x3.det3_eq, rotX90_determinant, rotX90]
  norm_num

/-- C1: the failing input for the plane claim.  `rotatedPlane` carries the
90-degree x-rotation, so the ray from (0,0,-5) along (0,0,1) transformed into
the plane's local space has direction y-component 1 — far outside epsilon, so
per the claim (and the spec's transform-then-dispatch description) exactly one
intersection (t = 5) should be returned.  The code instead tests the
untransformed `self.direction.y = 0` and returns no intersections. -/
theorem plane_parallel_check_divergence :
    Ray.intersect ⟨point 0 0 (-5), vector 0 0 1⟩ rotatedPlane = some [] ∧
    rotatedPlane.transform.inverse = some ⟨1, 0, 0, 0, 0, 0, 1, 0, 0, -1, 0, 0, 0, 0, 0, 1⟩ ∧
    ((⟨1, 0, 0, 0, 0, 0, 1, 0, 0, -1, 0, 0, 0, 0, 0, 1⟩ : Matrix4x4).mulTuple
        (vector 0 0 1)).y = 1 ∧
    ¬ |((⟨1, 0, 0, 0, 0, 0, 1, 0, 0, -1, 0, 0, 0, 0, 0, 1⟩ : Matrix4x4).mulTuple
        (vector 0 0 1)).y| < DEFAULT_EPSILON := by
  have hinv : rotatedPlane.transform.inverse =
      some ⟨1, 0, 0, 0, 0, 0, 1, 0, 0, -1, 0, 0, 0, 0, 0, 1⟩ := by
    rw [show rotatedPlane.transform = rotX90 from rfl, rotX90_inverse]
  have hy : ((⟨1, 0, 0, 0, 0, 0, 1, 0, 0, -1, 0, 0, 0, 0, 0, 1⟩ : Matrix4x4).mulTuple
      (vector 0 0 1)).y = 1 := by
    rw [Matrix4x4.mulTuple_eq]
    simp [vector]
  refine ⟨?_, hinv, hy, ?_⟩
  · rw [Ray.intersect, hinv]
    simp only [Option.bind_eq_bind, Option.some_bind,
      show rotatedPlane.shape = Shape.plane from rfl]
    rw [if_pos]
    · rfl
    · show |(vector (0 : ℝ) 0 1).y| < DEFAULT_EPSILON
      rw [DEFAULT_EPSILON]
      norm_num [vector]
  · rw [hy, DEFAULT_EPSILON]
    norm_num

lemma lighting_unfold (o : Object) (li : Light) (p e n : Tuple) (sh : Bool) (pc : Colour)
    (hp : o.pattern_at p = some pc) :
    lighting o li p e n sh =
      some ((pc * li.intensity) * o.material.ambient +
        (if sh = true then (BLACK, BLACK)
         else if ((li.position - p).normalize).dot n < 0 then (BLACK, BLACK)
         else
          ((pc * li.intensity) * o.material.diffuse * (((li.position - p).normalize).dot n),
            if ((-((li.position - p).normalize)).reflect n).dot e ≤ 0 then BLACK
            else li.intensity * o.material.specular *
              Real.rpow (((-((li.position - p).normalize)).reflect n).dot e)
                o.material.shininess)).1 +
        (if sh = true then (BLACK, BLACK)
         else if ((li.position - p).normalize).dot n < 0 then (BLACK, BLACK)
         else
          ((pc * li.intensity) * o.material.diffuse * (((li.position - p).normalize).dot n),
            if ((-((li.position - p).normalize)).reflect n).dot e ≤ 0 then BLACK
            else li.intensity * o.material.specular *
              Real.rpow (((-((li.position - p).normalize)).reflect n).dot e)
                o.material.shininess)).2) := by
  unfold lighting
  rw [hp]
  rfl

/-- C6: `lighting` returns exactly the ambient term — the pattern/material
colour times the light intensity times the ambient coefficient — whenever
`in_shadow` holds or the normalized direction-to-light vector dotted with the
normal is negative; and in every case (any shadow flag) the result is the
ambient term plus some diffuse and specular contributions. -/
theorem lighting_shadow_or_behind_is_ambient (o : Object) (li : Light) (p e n : Tuple)
    (sh : Bool) (pc : Colour)
    (hp : o.pattern_at p = some pc)
    (h : sh = true ∨ ((li.position - p).normalize).dot n < 0) :
    lighting o li p e n sh = some ((pc * li.intensity) * o.material.ambient) ∧
    ∀ sh' : Bool, ∃ d s : Colour,
      lighting o li p e n sh' = some ((pc * li.intensity) * o.material.ambient + d + s) := by
  constructor
  · rw [lighting_unfold o li p e n sh pc hp]
    rcases h with h | h
    · rw [if_pos h]
      simp [Colour.add_black]
    · by_cases hsh : sh = true
      · rw [if_pos hsh]
        simp [Colour.add_black]
      · rw [if_neg hsh, if_pos h]
        simp [Colour.add_black]
  · intro sh'
    rw [lighting_unfold o li p e n sh' pc hp]
    exact ⟨_, _, rfl⟩

lemma magnitude_0_0_10 : Tuple.magnitude ⟨0, 0, 10, 0⟩ = 10 := by
  rw [Tuple.magnitude]
  norm_num
  rw [show (100 : ℝ) = 10 ^ 2 by norm_num, Real.sqrt_sq (by norm_num : (0 : ℝ) ≤ 10)]

/-- Witness for C6: with the default test object and a white light, the
shadowed result is exactly the ambient colour (0.1, 0.1, 0.1); the same holds
unshadowed when the light sits at (0,0,10) behind the surface normal
(0,0,-1). -/
theorem lighting_shadow_or_behind_is_ambient_witness :
    lighting Object.new ⟨point 0 0 (-10), WHITE⟩ (point 0 0 0) (vector 0 0 (-1))
        (vector 0 0 (-1)) true = some ⟨0.1, 0.1, 0.1⟩ ∧
    lighting Object.new ⟨point 0 0 10, WHITE⟩ (point 0 0 0) (vector 0 0 (-1))
        (vector 0 0 (-1)) false = some ⟨0.1, 0.1, 0.1⟩ := by
  have hamb : (WHITE * (⟨point 0 0 10, WHITE⟩ : Light).intensity) * Object.new.material.ambient =
      (⟨0.1, 0.1, 0.1⟩ : Colour) := by
    simp [WHITE, Colour.cmul_def, Colour.csmul_def,
      show Object.new.material.ambient = 0.1 from rfl]
  constructor
  · have h := (lighting_shadow_or_behind_is_ambient Object.new ⟨point 0 0 (-10), WHITE⟩
      (point 0 0 0) (vector 0 0 (-1)) (vector 0 0 (-1)) true WHITE rfl (Or.inl rfl)).1
    rw [h]
    simp only [← hamb]
  · have hdot : (((⟨point 0 0 10, WHITE⟩ : Light).position - point 0 0 0).normalize).dot
        (vector 0 0 (-1)) < 0 := by
      have hsub : (⟨point 0 0 10, WHITE⟩ : Light).position - point 0 0 0 =
          (⟨0, 0, 10, 0⟩ : Tuple) := by
        simp [Tuple.tsub_def, point]
      rw [hsub, Tuple.normalize, magnitude_0_0_10, Tuple.dot, vector]
      norm_num
    have h := (lighting_shadow_or_behind_is_ambient Object.new ⟨point 0 0 10, WHITE⟩
      (point 0 0 0) (vector 0 0 (-1)) (vector 0 0 (-1)) false WHITE rfl (Or.inr hdot)).1
    rw [h, hamb]

/-- C7: the reflection/refraction recursion is bounded by the integer depth
alone: at depth 0 both `reflected_colour` and `refracted_colour` return black
without recursing, and at depth d+1 each re-enters `colour_at` only at depth
d (the model realises the mutual recursion as a Lean function precisely
because this measure decreases). -/
theorem colour_at_depth_bound (w : World) (comps : Computations) (d : ℕ) :
    w.reflected_colour comps 0 = some BLACK ∧
    w.refracted_colour comps 0 = some BLACK ∧
    (w.reflected_colour comps (d + 1) =
      if comps.object.material.reflective = 0 then some BLACK
      else do
        let colour ← w.colour_at ⟨comps.over_point, comps.reflectv⟩ d
        pure (colour * comps.object.material.reflective)) ∧
    (w.refracted_colour comps (d + 1) =
      if comps.object.material.transparency = 0 then some BLACK
      else if 1 < (comps.n1 / comps.n2) ^ 2 * (1 - (comps.eyev.dot comps.normalv) ^ 2) then
        some BLACK
      else do
        let colour ← w.colour_at
          ⟨comps.under_point,
            comps.normalv * ((comps.n1 / comps.n2) * (comps.eyev.dot comps.normalv) -
                Real.sqrt (1 - (comps.n1 / comps.n2) ^ 2 *
                  (1 - (comps.eyev.dot comps.normalv) ^ 2))) -
              comps.eyev * (comps.n1 / comps.n2)⟩ d
        pure (colour * comps.object.material.transparency)) := by
  refine ⟨?_, ?_, ?_, ?_⟩
  · rw [World.reflected_colour]
    rfl
  · rw [World.refracted_colour]
    rfl
  · rw [World.reflected_colour]
    rfl
  · rw [World.refracted_colour]
    rfl

lemma normalize_zero : Tuple.normalize ⟨0, 0, 0, 0⟩ = ⟨0, 0, 0, 0⟩ := by
  rw [Tuple.normalize]
  simp

lemma normal_at_test_identity (o : Object) (p : Tuple)
    (h1 : o.transform = identity) (h2 : o.shape = Shape.test) :
    o.normal_at p = some ⟨0, 0, 0, 0⟩ := by
  rw [Object.normal_at, h1, identity_inverse]
  simp only [Option.bind_eq_bind, Option.some_bind, h2]
  rw [show identity.transpose = identity from rfl, identity_mulTuple]
  show some (Tuple.normalize ⟨0, 0, 0, 0⟩) = _
  rw [normalize_zero]

lemma prepare_n1n2_map (r : Ray) (inter : Intersection) (xs : Intersections)
    (n : Tuple) (hn : inter.object.normal_at (r.position inter.t) = some n) :
    Option.map Computations.n1 (r.prepare_computations inter xs) =
      some (refractionWalk inter xs.inters []).1 ∧
    Option.map Computations.n2 (r.prepare_computations inter xs) =
      some (refractionWalk inter xs.inters []).2 := by
  rw [Ray.prepare_computations]
  dsimp only
  rw [hn]
  exact ⟨rfl, rfl⟩

lemma refractionWalk_split (inter x : Intersection) :
    ∀ (pre rest : List Intersection) (cs : List Object),
      (∀ y ∈ pre, y.t ≠ inter.t) → x.t = inter.t →
      refractionWalk inter (pre ++ x :: rest) cs =
        (lastRefractive (pre.foldl (fun cs y => toggleObject y.object cs) cs),
         lastRefractive (toggleObject x.object
            (pre.foldl (fun cs y => toggleObject y.object cs) cs))) := by
  intro pre
  induction pre with
  | nil =>
    intro rest cs _ hx
    rw [List.nil_append, refractionWalk, if_pos hx]
    simp
  | cons y ys ih =>
    intro rest cs hpre hx
    rw [List.cons_append, refractionWalk, if_neg (hpre y (List.mem_cons_self _ _)),
      List.foldl_cons]
    exact ih rest _ (fun z hz => hpre z (List.mem_cons_of_mem _ hz)) hx

/-- C2 (amended): the n1/n2 walk of `prepare_computations` toggles a stack of
entered objects along the sorted list, but stops at the FIRST element whose
`t` equals the hit's `t` (the `PartialEq` of `Intersection` compares `t`
alone): n1 is the refractive index of the stack top before that element is
toggled (1.0 for the empty stack) and n2 the top after toggling that
element's object. -/
theorem prepare_computations_n1_n2 (r : Ray) (inter : Intersection) (xs : Intersections)
    (pre rest : List Intersection) (x : Intersection) (comps : Computations)
    (hsplit : xs.inters = pre ++ x :: rest)
    (hx : x.t = inter.t)
    (hpre : ∀ y ∈ pre, y.t ≠ inter.t)
    (hcomp : r.prepare_computations inter xs = some comps) :
    comps.n1 = lastRefractive (pre.foldl (fun cs y => toggleObject y.object cs) []) ∧
    comps.n2 = lastRefractive (toggleObject x.object
        (pre.foldl (fun cs y => toggleObject y.object cs) [])) := by
  rw [Ray.prepare_computations] at hcomp
  dsimp only at hcomp
  rcases hbind : inter.object.normal_at (r.position inter.t) with _ | n
  · rw [hbind] at hcomp
    exact Option.noConfusion hcomp
  · rw [hbind] at hcomp
    have hcomp' := Option.some.inj hcomp
    have h1 : comps.n1 = (refractionWalk inter xs.inters []).1 := by
      rw [← hcomp']
    have h2 : comps.n2 = (refractionWalk inter xs.inters []).2 := by
      rw [← hcomp']
    rw [h1, h2, hsplit, refractionWalk_split inter x pre rest [] hpre hx]
    exact ⟨rfl, rfl⟩

/-- Witness for C2: for a one-element list containing the hit itself (a glass
test object of refractive index 1.5), the walk yields n1 = 1 (empty stack)
and n2 = 1.5 (the hit's object after toggling). -/
theorem prepare_computations_n1_n2_witness :
    Option.map Computations.n1 (Ray.prepare_computations ⟨point 0 0 0, vector 0 0 1⟩
        ⟨1, glassA⟩ (Intersections.new [⟨1, glassA⟩])) = some 1 ∧
    Option.map Computations.n2 (Ray.prepare_computations ⟨point 0 0 0, vector 0 0 1⟩
        ⟨1, glassA⟩ (Intersections.new [⟨1, glassA⟩])) = some 1.5 := by
  have hn : (⟨(1 : ℝ), glassA⟩ : Intersection).object.normal_at
      (Ray.position ⟨point 0 0 0, vector 0 0 1⟩ (1 : ℝ)) = some ⟨0, 0, 0, 0⟩ :=
    normal_at_test_identity _ _ rfl rfl
  have hmap := prepare_n1n2_map ⟨point 0 0 0, vector 0 0 1⟩ ⟨1, glassA⟩
    (Intersections.new [⟨1, glassA⟩]) _ hn
  obtain ⟨comps, hcomp, hn1⟩ := Option.map_eq_some'.mp hmap.1
  have h := prepare_computations_n1_n2 ⟨point 0 0 0, vector 0 0 1⟩ ⟨1, glassA⟩
    (Intersections.new [⟨1, glassA⟩]) [] [] ⟨1, glassA⟩ comps rfl rfl
    (by intro y hy; cases hy) hcomp
  constructor
  · rw [hcomp]
    simp only [Option.map_some', Option.some.injEq]
    rw [h.1]
    simp [lastRefractive]
  · rw [hcomp]
    simp only [Option.map_some', Option.some.injEq]
    rw [h.2]
    norm_num [lastRefractive, toggleObject, glassA]

/-- C2 counterexample: two intersections share t = 1 but carry different
objects (`glassA`, refractive index 1.5, and `glassB`, 2.5); the list is
already sorted.  For the hit = the second element ⟨1, glassB⟩ the claim's
walk — which stops at the hit itself — prescribes (n1, n2) = (1.5, 2.5),
but the code's loop compares intersections by `t` alone, stops at the first
element ⟨1, glassA⟩, and produces n1 = 1 and n2 = 1.5. -/
theorem prepare_computations_n1_n2_counterexample :
    (Intersections.new [⟨1, glassA⟩, ⟨1, glassB⟩]).inters = [⟨1, glassA⟩, ⟨1, glassB⟩] ∧
    refractionWalkSpec ⟨1, glassB⟩ [⟨1, glassA⟩, ⟨1, glassB⟩] [] = (1.5, 2.5) ∧
    Option.map Computations.n1 (Ray.prepare_computations ⟨point 0 0 0, vector 0 0 1⟩
        ⟨1, glassB⟩ (Intersections.new [⟨1, glassA⟩, ⟨1, glassB⟩])) = some 1 ∧
    Option.map Computations.n2 (Ray.prepare_computations ⟨point 0 0 0, vector 0 0 1⟩
        ⟨1, glassB⟩ (Intersections.new [⟨1, glassA⟩, ⟨1, glassB⟩])) = some 1.5 ∧
    (1 : ℝ) ≠ 1.5 := by
  have hAB : ¬(glassA = glassB) := by
    norm_num [glassA, glassB]
  have hne1 : ¬((⟨1, glassA⟩ : Intersection) = ⟨1, glassB⟩) := by
    simp only [Intersection.mk.injEq, not_and]
    intro _
    exact hAB
  have hsort : (Intersections.new [⟨1, glassA⟩, ⟨1, glassB⟩]).inters =
      [⟨1, glassA⟩, ⟨1, glassB⟩] := by
    show sortInters _ = _
    rw [sortInters]
    simp only [List.foldl_cons, List.foldl_nil]
    rw [show insertInter ⟨1, glassA⟩ [] = [⟨1, glassA⟩] from rfl, insertInter,
      if_neg (by norm_num)]
    rfl
  have hspec : refractionWalkSpec ⟨1, glassB⟩ [⟨1, glassA⟩, ⟨1, glassB⟩] [] = (1.5, 2.5) := by
    simp only [refractionWalkSpec]
    simp only [if_true]
    rw [show toggleObject glassA ([] : List Object) = [glassA] from rfl,
      toggleObject, if_neg hAB, if_neg hne1]
    rfl
  have hwalk : refractionWalk ⟨1, glassB⟩ [⟨1, glassA⟩, ⟨1, glassB⟩] [] = (1, 1.5) := by
    simp only [refractionWalk]
    simp only [if_true]
    rfl
  have hn : (⟨(1 : ℝ), glassB⟩ : Intersection).object.normal_at
      (Ray.position ⟨point 0 0 0, vector 0 0 1⟩ (1 : ℝ)) = some ⟨0, 0, 0, 0⟩ :=
    normal_at_test_identity _ _ rfl rfl
  have hmap := prepare_n1n2_map ⟨point 0 0 0, vector 0 0 1⟩ ⟨1, glassB⟩
    (Intersections.new [⟨1, glassA⟩, ⟨1, glassB⟩]) _ hn
  rw [hsort, hwalk] at hmap
  refine ⟨hsort, hspec, ?_, ?_, by norm_num⟩
  · rw [hmap.1]
  · rw [hmap.2]

lemma is_shadowed_lights_tail (os : List Object) (l : Light) (ls ls' : List Light)
    (p : Tuple) :
    World.is_shadowed ⟨os, l :: ls⟩ p = World.is_shadowed ⟨os, l :: ls'⟩ p := rfl

lemma shade_hit_tail_of (os : List Object) (l : Light) (ls ls' : List Light) (d : ℕ)
    (hrefl : ∀ comps, World.reflected_colour ⟨os, l :: ls⟩ comps d =
      World.reflected_colour ⟨os, l :: ls'⟩ comps d)
    (hrefr : ∀ comps, World.refracted_colour ⟨os, l :: ls⟩ comps d =
      World.refracted_colour ⟨os, l :: ls'⟩ comps d) :
    ∀ comps, World.shade_hit ⟨os, l :: ls⟩ comps d = World.shade_hit ⟨os, l :: ls'⟩ comps d := by
  intro comps
  rw [World.shade_hit, World.shade_hit,
    is_shadowed_lights_tail os l ls ls' comps.over_point]
  congr 1
  funext sh
  dsimp only
  rw [hrefl, hrefr]

lemma colour_at_tail_of (os : List Object) (l : Light) (ls ls' : List Light) (d : ℕ)
    (hshade : ∀ comps, World.shade_hit ⟨os, l :: ls⟩ comps d =
      World.shade_hit ⟨os, l :: ls'⟩ comps d) :
    ∀ r, World.colour_at ⟨os, l :: ls⟩ r d = World.colour_at ⟨os, l :: ls'⟩ r d := by
  intro r
  rw [World.colour_at, World.colour_at,
    show World.intersect ⟨os, l :: ls⟩ r = World.intersect ⟨os, l :: ls'⟩ r from rfl]
  congr 1
  funext inters
  dsimp only
  cases inters.hit with
  | none => rfl
  | some h =>
    dsimp only
    congr 1
    funext comps
    exact hshade comps

lemma world_lights_tail (os : List Object) (l : Light) (ls ls' : List Light) :
    ∀ d : ℕ,
      (∀ comps, World.reflected_colour ⟨os, l :: ls⟩ comps d =
        World.reflected_colour ⟨os, l :: ls'⟩ comps d) ∧
      (∀ comps, World.refracted_colour ⟨os, l :: ls⟩ comps d =
        World.refracted_colour ⟨os, l :: ls'⟩ comps d) ∧
      (∀ comps, World.shade_hit ⟨os, l :: ls⟩ comps d =
        World.shade_hit ⟨os, l :: ls'⟩ comps d) ∧
      (∀ r, World.colour_at ⟨os, l :: ls⟩ r d = World.colour_at ⟨os, l :: ls'⟩ r d) := by
  intro d
  induction d with
  | zero =>
    have hrefl : ∀ comps, World.reflected_colour ⟨os, l :: ls⟩ comps 0 =
        World.reflected_colour ⟨os, l :: ls'⟩ comps 0 := by
      intro comps
      rw [World.reflected_colour, World.reflected_colour]
    have hrefr : ∀ comps, World.refracted_colour ⟨os, l :: ls⟩ comps 0 =
        World.refracted_colour ⟨os, l :: ls'⟩ comps 0 := by
      intro comps
      rw [World.refracted_colour, World.refracted_colour]
    have hshade := shade_hit_tail_of os l ls ls' 0 hrefl hrefr
    exact ⟨hrefl, hrefr, hshade, colour_at_tail_of os l ls ls' 0 hshade⟩
  | succ n ih =>
    have hrefl : ∀ comps, World.reflected_colour ⟨os, l :: ls⟩ comps (n + 1) =
        World.reflected_colour ⟨os, l :: ls'⟩ comps (n + 1) := by
      intro comps
      rw [World.reflected_colour, World.reflected_colour]
      dsimp only
      rw [ih.2.2.2]
    have hrefr : ∀ comps, World.refracted_colour ⟨os, l :: ls⟩ comps (n + 1) =
        World.refracted_colour ⟨os, l :: ls'⟩ comps (n + 1) := by
      intro comps
      rw [World.refracted_colour, World.refracted_colour]
      dsimp only
      rw [ih.2.2.2]
    have hshade := shade_hit_tail_of os l ls ls' (n + 1) hrefl hrefr
    exact ⟨hrefl, hrefr, hshade, colour_at_tail_of os l ls ls' (n + 1) hshade⟩

/-- C9: in a world with an empty lights list, `is_shadowed` and `shade_hit`
panic (`none`, the out-of-bounds `lights[0]`) on every input, hence
`colour_at` panics on every ray whose intersections contain a positive hit;
and both functions consult only the light at index 0 — their results never
depend on the tail of the lights list. -/
theorem empty_lights_panics (w : World) (p : Tuple) (comps : Computations) (r : Ray)
    (d : ℕ) :
    (w.lights = [] → w.is_shadowed p = none) ∧
    (w.lights = [] → w.shade_hit comps d = none) ∧
    (w.lights = [] → ∀ (xs : Intersections) (h : Intersection),
      w.intersect r = some xs → xs.hit = some h → w.colour_at r d = none) ∧
    (∀ (os : List Object) (l : Light) (ls ls' : List Light) (p' : Tuple)
        (c' : Computations) (d' : ℕ),
      World.is_shadowed ⟨os, l :: ls⟩ p' = World.is_shadowed ⟨os, l :: ls'⟩ p' ∧
      World.shade_hit ⟨os, l :: ls⟩ c' d' = World.shade_hit ⟨os, l :: ls'⟩ c' d') := by
  have hisw : w.lights = [] → ∀ q, w.is_shadowed q = none := by
    intro hl q
    rw [World.is_shadowed, hl]
  have hsh : w.lights = [] → ∀ (c : Computations) (d' : ℕ), w.shade_hit c d' = none := by
    intro hl c d'
    rw [World.shade_hit, hisw hl c.over_point]
    rfl
  refine ⟨fun hl => hisw hl p, fun hl => hsh hl comps d, ?_, ?_⟩
  · intro hl xs h hint hhit
    rw [World.colour_at, hint]
    show (Option.some xs).bind _ = none
    rw [Option.some_bind]
    rw [hhit]
    dsimp only
    rcases hp : r.prepare_computations h xs with _ | c
    · rfl
    · exact hsh hl c d
  · intro os l ls ls' p' c' d'
    exact ⟨is_shadowed_lights_tail os l ls ls' p', (world_lights_tail os l ls ls' d').2.2.1 c'⟩

lemma plane_intersect_eval :
    Ray.intersect ⟨point 0 1 0, vector 0 (-1) 0⟩ Object.new_plane =
      some [⟨1, Object.new_plane⟩] := by
  rw [Ray.intersect, show Object.new_plane.transform = identity from rfl, identity_inverse]
  simp only [Option.bind_eq_bind, Option.some_bind,
    show Object.new_plane.shape = Shape.plane from rfl]
  rw [if_neg]
  · rw [transform_identity]
    norm_num [point, vector]
  · show ¬ |(vector (0 : ℝ) (-1) 0).y| < DEFAULT_EPSILON
    rw [DEFAULT_EPSILON]
    norm_num [vector]

lemma noLightWorld_intersect :
    noLightWorld.intersect ⟨point 0 1 0, vector 0 (-1) 0⟩ =
      some (Intersections.new [⟨1, Object.new_plane⟩]) := by
  rw [World.intersect, show noLightWorld.objects = [Object.new_plane] from rfl]
  rw [List.mapM_cons, plane_intersect_eval, List.mapM_nil]
  rfl

lemma singleton_hit :
    (Intersections.new [⟨1, Object.new_plane⟩]).hit = some ⟨1, Object.new_plane⟩ := by
  rw [Intersections.hit,
    show (Intersections.new [⟨1, Object.new_plane⟩]).inters = [⟨1, Object.new_plane⟩] from rfl,
    hitLoop, if_pos]
  norm_num

/-- Witness for C9: in `noLightWorld` (one plane, no lights) `is_shadowed`
and `shade_hit` panic on concrete inputs, and `colour_at` panics on the ray
from (0,1,0) straight down, which has a positive hit at t = 1. -/
theorem empty_lights_panics_witness :
    noLightWorld.is_shadowed (point 0 0 0) = none ∧
    noLightWorld.shade_hit ⟨0, Object.new, point 0 0 0, vector 0 0 0, vector 0 0 0, false,
      point 0 0 0, point 0 0 0, vector 0 0 0, 1, 1⟩ 5 = none ∧
    noLightWorld.colour_at ⟨point 0 1 0, vector 0 (-1) 0⟩ 5 = none := by
  have h := empty_lights_panics noLightWorld (point 0 0 0)
    ⟨0, Object.new, point 0 0 0, vector 0 0 0, vector 0 0 0, false,
      point 0 0 0, point 0 0 0, vector 0 0 0, 1, 1⟩
    ⟨point 0 1 0, vector 0 (-1) 0⟩ 5
  exact ⟨h.1 rfl, h.2.1 rfl,
    h.2.2.1 rfl (Intersections.new [⟨1, Object.new_plane⟩]) ⟨1, Object.new_plane⟩
      noLightWorld_intersect singleton_hit⟩

end

end RayTracer
